import Mathlib

/-!
Shallow embedding of `sweepai/app/ui.py` (the Sweep chat UI orchestration
loop) and proofs about its turn handling.

The embedding mirrors the source function by function:
* `handle_message_stream` is the per-turn generator (search phase, pending
  proposal confirmation, streamed response aggregation, `create_pr`
  function-call handling);
* `repo_name_change` is the repository-selection handler.

External collaborators (`api_client.search`, `api_client.stream_chat`,
`api_client.create_pr`, `json.loads`, `api_client.get_installation_id`) are
modelled as oracle inputs collected in `Env`; every call the turn makes to
one of them is recorded in the result so the call pattern can be reasoned
about.  Python strings are Lean `String`s; Python `None` for an optional
string is `Option.none`; a Python runtime exception ends the turn with the
corresponding `TurnError`.
-/

namespace SweepUI

/-- Embedding of Python `str.lower` as used in `ui.py` (ASCII case mapping,
character by character). -/
def pyLower (s : String) : String := String.mk (s.data.map Char.toLower)

/-- Embedding of Python `str.strip`: drop leading and trailing whitespace. -/
def pyStrip (s : String) : String :=
  String.mk (((s.data.dropWhile Char.isWhitespace).reverse.dropWhile Char.isWhitespace).reverse)

/-- Embedding of Python `str.replace old new` for the one-character patterns
`ui.py` uses when deriving a branch name (`" "` and `"-"` to `"_"`). -/
def replaceChar (s : String) (pat sub : Char) : String :=
  String.mk (s.data.map (fun c => if c = pat then sub else c))

/-- Embedding of the Python slice `s[:n]`: the first `n` characters. -/
def strSlice (s : String) (n : Nat) : String := String.mk (s.data.take n)

/-- Embedding of Python `s.count "\n"`: number of newline characters. -/
def countNewlines (s : String) : Nat := s.data.count '\n'

/-- Embedding of `.replace(backtick, escaped_backtick)` from `ui.py`:
every backtick becomes a backslash followed by a backtick. -/
def escapeBackticks (s : String) : String :=
  String.mk (s.data.flatMap (fun c => if c = '`' then ['\\', '`'] else [c]))

/-- Helper for `splitLines`: the accumulator holds the current line reversed. -/
def splitLinesAux : List Char → List Char → List String
  | [], acc => [String.mk acc.reverse]
  | c :: cs, acc =>
    if c = '\n' then String.mk acc.reverse :: splitLinesAux cs []
    else splitLinesAux cs (c :: acc)

/-- Embedding of Python `s.split "\n"`. -/
def splitLines (s : String) : List String := splitLinesAux s.data []

/-- Embedding of Python `sep.join xs`. -/
def joinWith (sep : String) : List String → String
  | [] => ""
  | [s] => s
  | s :: t :: ts => s ++ sep ++ joinWith sep (t :: ts)

/-- Line 107 of `ui.py`: `if snippets_text and snippets_text.strip().count("\n") == 0`.
The snippet search fires exactly when the currently rendered snippet block is
a non-empty string whose stripped form holds no newline. -/
def triggersSearch (snippets_text : String) : Bool :=
  snippets_text != "" && countNewlines (pyStrip snippets_text) == 0

/-- Line 124 of `ui.py`: `chat_history[-1][0].strip().lower() in ("okay", "ok")`. -/
def okMessage (m : String) : Bool :=
  pyLower (pyStrip m) == "okay" || pyLower (pyStrip m) == "ok"

/-- Line 167 of `ui.py`: `arguments["title"].lower().replace(" ", "_").replace("-", "_")[:50]`. -/
def deriveBranch (title : String) : String :=
  strSlice (replaceChar (replaceChar (pyLower title) ' ' '_') '-' '_') 50

/-- A snippet returned by the search service (`sweepai.core.entities.Snippet`):
a denotation string plus the excerpt content. -/
structure Snippet where
  denotation : String
  content : String
deriving Repr, DecidableEq

/-- Modelled from the spec: `Snippet.get_preview n` returns the first `n`
lines of the snippet content.  The `Snippet` class lives in
`sweepai/core/entities.py`, outside the embedded source file. -/
def Snippet.get_preview (s : Snippet) (n : Nat) : String :=
  joinWith "\n" ((splitLines s.content).take n)

/-- Lines 116-120 of `ui.py`: the markdown rendering of the fetched snippets. -/
def renderSnippetsText (snippets : List Snippet) : String :=
  "### Relevant snippets:\n" ++
    joinWith "\n" (snippets.map (fun sn =>
      sn.denotation ++ "\n```python\n" ++ escapeBackticks (sn.get_preview 5) ++ "\n```"))

/-- One entry of a `create_pr` plan: a dict with `file_path` and `instructions`. -/
structure PlanItem where
  file_path : String
  instructions : String
deriving Repr, DecidableEq

/-- The pending proposal stored in the module-level `proposed_pr` variable
once a `create_pr` function call has been validated (its four keys read
later by the confirmation branch). -/
structure Proposal where
  title : String
  summary : String
  plan : List PlanItem
  branch : String
deriving Repr, DecidableEq

/-- The parsed `create_pr` argument object produced by `json.loads`: each
field is `none` when the corresponding key is absent from the JSON object. -/
structure CreatePrArgs where
  title : Option String
  summary : Option String
  plan : Option (List PlanItem)
  branch : Option String
deriving Repr, DecidableEq

/-- The `function_call` part of a stream chunk: `.get "name"` and
`.get "arguments"` each yield `none` when the key is missing. -/
structure FunctionCallChunk where
  name : Option String
  arguments : Option String
deriving Repr, DecidableEq

/-- One chunk of the `stream_chat` stream.  `content := none` covers both a
missing key and Python `None`; `function_call := none` covers a missing,
`None`, or empty (falsy) `function_call` dict. -/
structure Chunk where
  content : Option String
  function_call : Option FunctionCallChunk
deriving Repr, DecidableEq

/-- One element of the gradio chat history: a `[user, assistant]` pair,
either side possibly `None`. -/
structure ChatTurn where
  user : Option String
  assistant : Option String
deriving Repr, DecidableEq

/-- The Python runtime exceptions the turn generator can raise. -/
inductive TurnError where
  /-- `chat_history[-1]` on an empty history. -/
  | indexError
  /-- `.strip()` on `None`. -/
  | attributeError
  /-- `str += None` when a function-call chunk carries no `arguments`. -/
  | typeError
  /-- `json.loads` failure on the accumulated raw arguments. -/
  | jsonError
  /-- a failed `assert` on the required `create_pr` keys. -/
  | assertionError
  /-- a function name other than `create_pr` (line 176). -/
  | notImplementedError
deriving Repr, DecidableEq

/-- The `pull_request` dict passed to `api_client.create_pr` (lines 129-133). -/
structure PullRequestMeta where
  title : String
  content : String
  branch_name : String
deriving Repr, DecidableEq

/-- The full argument record of one `api_client.create_pr` call (lines 127-135). -/
structure CreatePrCall where
  file_change_requests : List (String × String)
  pull_request : PullRequestMeta
  messages : List ChatTurn
deriving Repr, DecidableEq

/-- Oracle responses of the external collaborators for one turn:
the snippet search result, the chat stream, the behaviour of `json.loads`
on the accumulated argument buffer, and the `html_url` that a successful
`create_pr` returns. -/
structure Env where
  searchResult : List Snippet
  streamChunks : List Chunk
  parseJson : String → Option CreatePrArgs
  prUrl : String

/-- Everything observable about one run of the turn generator: the yielded
`(chat_history, snippets_text)` pairs, every external call made, the final
mutable state, and the exception that ended the turn (if any). -/
structure TurnResult where
  emits : List (List ChatTurn × String)
  searchCalls : List (Option String × Nat)
  streamChatCalls : List (List ChatTurn × List Snippet)
  createPrCalls : List CreatePrCall
  chat_history : List ChatTurn
  snippets_text : String
  proposed_pr : Option Proposal
  error : Option TurnError

/-- Python truthiness of a string-or-`None` value. -/
def pyTruthy : Option String → Bool
  | none => false
  | some s => s != ""

/-- Python `a or b` on string-or-`None` values. -/
def pyOrStr : Option String → Option String → Option String
  | some s, b => if s == "" then b else some s
  | none, b => b

/-- How Python renders a string-or-`None` value inside an f-string. -/
def pyStrRender : Option String → String
  | none => "None"
  | some s => s

/-- `chat_history[-1][0]` of a non-empty history (the user slot of the last turn). -/
def lastUser : List ChatTurn → Option String
  | [] => none
  | [t] => t.user
  | _ :: t :: ts => lastUser (t :: ts)

/-- `chat_history[-1][1]` of a non-empty history (the assistant slot of the last turn). -/
def lastAssistant : List ChatTurn → Option String
  | [] => none
  | [t] => t.assistant
  | _ :: t :: ts => lastAssistant (t :: ts)

/-- `chat_history[-1][1] = v`: overwrite the assistant slot of the last turn
(identity on the empty history; callers check emptiness where the source
would raise `IndexError`). -/
def setLastAssistant : List ChatTurn → String → List ChatTurn
  | [], _ => []
  | [t], v => [{ t with assistant := some v }]
  | t :: u :: ts, v => t :: setLastAssistant (u :: ts) v

/-- `chat_history[-1][1] += tok`: `IndexError` on an empty history,
`TypeError` when the assistant slot holds `None`. -/
def appendLastAssistant : List ChatTurn → String → Except TurnError (List ChatTurn)
  | [], _ => .error .indexError
  | [t], tok =>
    match t.assistant with
    | none => .error .typeError
    | some a => .ok [{ t with assistant := some (a ++ tok) }]
  | t :: u :: ts, tok => (appendLastAssistant (u :: ts) tok).map (t :: ·)

/-- Line 158 of `ui.py`: the partial function-call rendering. -/
def functionCallRender (name : Option String) (raw : String) : String :=
  "Calling function: `" ++ pyStrRender name ++ "`\n```json\n" ++ raw ++ "\n```"

/-- The loop state of the stream-consumption `for` loop (lines 147-159):
`function_name` (initially the Python empty string `some ""`),
`raw_arguments`, the chat history being mutated in place, and the yields
made so far. -/
structure LoopState where
  function_name : Option String
  raw_arguments : String
  chat_history : List ChatTurn
  emits : List (List ChatTurn × String)
deriving Repr

/-- Lines 150-153 of `ui.py`: the content part of one loop iteration.
A truthy content token is appended to the last assistant message, followed
by a yield. -/
def contentStep (snip : String) (s : LoopState) (c : Chunk) : LoopState × Option TurnError :=
  match c.content with
  | some tok =>
    if tok != "" then
      match appendLastAssistant s.chat_history tok with
      | .error e => (s, some e)
      | .ok ch => ({ s with chat_history := ch, emits := s.emits ++ [(ch, snip)] }, none)
    else (s, none)
  | none => (s, none)

/-- Lines 154-159 of `ui.py`: the function-call part of one loop iteration.
The name is fixed by the first fragment supplying one, the raw argument
buffer grows by concatenation (`TypeError` when the fragment carries no
`arguments`), the last assistant message becomes the partial rendering, and
the loop yields. -/
def fcStep (snip : String) (s : LoopState) (c : Chunk) : LoopState × Option TurnError :=
  match c.function_call with
  | none => (s, none)
  | some fc =>
    let name := pyOrStr s.function_name fc.name
    match fc.arguments with
    | none => ({ s with function_name := name }, some .typeError)
    | some a =>
      let raw := s.raw_arguments ++ a
      match s.chat_history with
      | [] => ({ s with function_name := name, raw_arguments := raw }, some .indexError)
      | _ :: _ =>
        let ch := setLastAssistant s.chat_history (functionCallRender name raw)
        ({ function_name := name, raw_arguments := raw, chat_history := ch,
           emits := s.emits ++ [(ch, snip)] }, none)

/-- One iteration of the stream loop (lines 149-159): the content part,
then — unless it raised — the function-call part. -/
def processChunk (snip : String) (s : LoopState) (c : Chunk) : LoopState × Option TurnError :=
  match contentStep snip s c with
  | (s1, some e) => (s1, some e)
  | (s1, none) => fcStep snip s1 c

/-- The whole stream loop: run `processChunk` over the chunks, stopping at
the first raised exception. -/
def processChunks (snip : String) (s : LoopState) : List Chunk → LoopState × Option TurnError
  | [] => (s, none)
  | c :: cs =>
    match processChunk snip s c with
    | (s1, some e) => (s1, some e)
    | (s1, none) => processChunks snip s1 cs

/-- Lines 19-27 of `ui.py`: the `pr_summary_template` with `title`,
`summary` and `plan` substituted. -/
def pr_summary_template (title summary plan : String) : String :=
  "💡 I\u0027ll create the following PR:\n\n**" ++ title ++ "**\n" ++ summary ++
    "\n\nHere is my plan:\n" ++ plan ++
    "\n\nReply with \"ok\" to create the PR or anything else to propose changes."

/-- Line 171 of `ui.py`: the bulleted plan rendering. -/
def planBullets (plan : List PlanItem) : String :=
  joinWith "\n" (plan.map (fun item => "* `" ++ item.file_path ++ "`: " ++ item.instructions))

/-- Lines 160-176 of `ui.py`: end-of-stream handling.  When a function name
was seen, parse the raw arguments, assert the three required keys, derive
the branch when absent, render the proposal summary, and store the
proposal; any other function name raises `NotImplementedError`. -/
def streamEnd (env : Env) (ls : LoopState) (snippets_text : String)
    (proposed_pr : Option Proposal) (searches : List (Option String × Nat))
    (streamCalls : List (List ChatTurn × List Snippet)) : TurnResult :=
  if pyTruthy ls.function_name then
    match env.parseJson ls.raw_arguments with
    | none =>
      { emits := ls.emits, searchCalls := searches, streamChatCalls := streamCalls,
        createPrCalls := [], chat_history := ls.chat_history,
        snippets_text := snippets_text, proposed_pr := proposed_pr, error := some .jsonError }
    | some args =>
      if ls.function_name == some "create_pr" then
        match args.title, args.summary, args.plan with
        | some title, some summary, some plan =>
          let branch : String :=
            match args.branch with
            | none => deriveBranch title
            | some b => b
          let render := pr_summary_template title summary (planBullets plan)
          match ls.chat_history with
          | [] =>
            { emits := ls.emits, searchCalls := searches, streamChatCalls := streamCalls,
              createPrCalls := [], chat_history := ls.chat_history,
              snippets_text := snippets_text, proposed_pr := proposed_pr,
              error := some .indexError }
          | _ :: _ =>
            let ch := setLastAssistant ls.chat_history render
            { emits := ls.emits ++ [(ch, snippets_text)], searchCalls := searches,
              streamChatCalls := streamCalls, createPrCalls := [],
              chat_history := ch, snippets_text := snippets_text,
              proposed_pr := some { title := title, summary := summary, plan := plan,
                                    branch := branch },
              error := none }
        | _, _, _ =>
          { emits := ls.emits, searchCalls := searches, streamChatCalls := streamCalls,
            createPrCalls := [], chat_history := ls.chat_history,
            snippets_text := snippets_text, proposed_pr := proposed_pr,
            error := some .assertionError }
      else
        { emits := ls.emits, searchCalls := searches, streamChatCalls := streamCalls,
          createPrCalls := [], chat_history := ls.chat_history,
          snippets_text := snippets_text, proposed_pr := proposed_pr,
          error := some .notImplementedError }
  else
    { emits := ls.emits, searchCalls := searches, streamChatCalls := streamCalls,
      createPrCalls := [], chat_history := ls.chat_history,
      snippets_text := snippets_text, proposed_pr := proposed_pr, error := none }

/-- Lines 140-176 of `ui.py`: append the `[None, "Fetching endpoint..."]`
turn, reset the assistant slot, call `stream_chat`, consume the stream and
handle its end. -/
def generateBranch (env : Env) (ch : List ChatTurn) (snippets_text : String)
    (proposed_pr : Option Proposal) (emits : List (List ChatTurn × String))
    (searches : List (Option String × Nat)) (snippets : List Snippet) : TurnResult :=
  let ch1 := ch ++ [{ user := none, assistant := some "Fetching endpoint..." }]
  let emits1 := emits ++ [(ch1, snippets_text)]
  let ch2 := setLastAssistant ch1 ""
  let init : LoopState :=
    { function_name := some "", raw_arguments := "", chat_history := ch2, emits := emits1 }
  match processChunks snippets_text init env.streamChunks with
  | (ls, some e) =>
    { emits := ls.emits, searchCalls := searches, streamChatCalls := [(ch2, snippets)],
      createPrCalls := [], chat_history := ls.chat_history,
      snippets_text := snippets_text, proposed_pr := proposed_pr, error := some e }
  | (ls, none) => streamEnd env ls snippets_text proposed_pr searches [(ch2, snippets)]

/-- Lines 125-138 of `ui.py`: the confirmation branch.  Render the
"Creating PR" message, call `create_pr` with the reshaped plan, the
pull-request descriptor and the chat history, render the URL message and
return.  Note the module-level `proposed_pr` is left in place. -/
def confirmBranch (env : Env) (ch : List ChatTurn) (snippets_text : String) (p : Proposal)
    (emits : List (List ChatTurn × String))
    (searches : List (Option String × Nat)) : TurnResult :=
  let ch1 := setLastAssistant ch "⏳ Creating PR..."
  let emits1 := emits ++ [(ch1, snippets_text)]
  let call : CreatePrCall :=
    { file_change_requests := p.plan.map (fun item => (item.file_path, item.instructions)),
      pull_request := { title := p.title, content := p.summary, branch_name := p.branch },
      messages := ch1 }
  let ch2 := setLastAssistant ch1 ("✅ PR created at " ++ env.prUrl)
  { emits := emits1 ++ [(ch2, snippets_text)], searchCalls := searches, streamChatCalls := [],
    createPrCalls := [call], chat_history := ch2, snippets_text := snippets_text,
    proposed_pr := some p, error := none }

/-- A turn that died with exception `e` after the recorded yields. -/
def errResult (e : TurnError) (emits : List (List ChatTurn × String))
    (searches : List (Option String × Nat)) (ch : List ChatTurn)
    (snippets_text : String) (proposed_pr : Option Proposal) : TurnResult :=
  { emits := emits, searchCalls := searches, streamChatCalls := [], createPrCalls := [],
    chat_history := ch, snippets_text := snippets_text, proposed_pr := proposed_pr,
    error := some e }

/-- Lines 123-176 of `ui.py`: after the search phase, either fire the
confirmation branch (pending proposal plus an "ok"/"okay" message) or
generate a streamed response. -/
def afterSearch (env : Env) (ch : List ChatTurn) (snippets_text : String)
    (proposed_pr : Option Proposal) (emits : List (List ChatTurn × String))
    (searches : List (Option String × Nat)) (snippets : List Snippet) : TurnResult :=
  match proposed_pr with
  | some p =>
    match ch with
    | [] => errResult .indexError emits searches ch snippets_text proposed_pr
    | _ :: _ =>
      match lastUser ch with
      | none => errResult .attributeError emits searches ch snippets_text proposed_pr
      | some m =>
        if okMessage m then confirmBranch env ch snippets_text p emits searches
        else generateBranch env ch snippets_text (some p) emits searches snippets
  | none => generateBranch env ch snippets_text none emits searches snippets

/-- The output of the snippet-search phase (lines 105-121 of `ui.py`). -/
structure SearchPhaseOut where
  chat_history : List ChatTurn
  snippets_text : String
  emits : List (List ChatTurn × String)
  searchCalls : List (Option String × Nat)
  snippets : List Snippet
  error : Option TurnError

/-- Lines 105-121 of `ui.py`: the initial yield, then — when the rendered
snippet block is truthy and strips to a single line — the search call with
the latest user message and fanout 3, plus the re-rendering of the block. -/
def searchPhase (env : Env) (chat_history : List ChatTurn)
    (snippets_text : String) : SearchPhaseOut :=
  let emits0 := [(chat_history, snippets_text)]
  if triggersSearch snippets_text then
    match chat_history with
    | [] =>
      { chat_history := chat_history, snippets_text := snippets_text, emits := emits0,
        searchCalls := [], snippets := [], error := some .indexError }
    | _ :: _ =>
      let ch1 := setLastAssistant chat_history "Searching for relevant snippets..."
      let emits1 := emits0 ++ [(ch1, snippets_text)]
      let snippets := env.searchResult
      let ch2 := setLastAssistant ch1 "Found relevant snippets."
      let st2 := renderSnippetsText snippets
      { chat_history := ch2, snippets_text := st2, emits := emits1 ++ [(ch2, st2)],
        searchCalls := [(lastUser chat_history, 3)], snippets := snippets, error := none }
  else
    { chat_history := chat_history, snippets_text := snippets_text, emits := emits0,
      searchCalls := [], snippets := [], error := none }

/-- Lines 103-176 of `ui.py`: one whole run of the turn generator. -/
def handle_message_stream (env : Env) (chat_history : List ChatTurn)
    (snippets_text : String) (proposed_pr : Option Proposal) : TurnResult :=
  let sp := searchPhase env chat_history snippets_text
  match sp.error with
  | some e => errResult e sp.emits sp.searchCalls sp.chat_history sp.snippets_text proposed_pr
  | none =>
    afterSearch env sp.chat_history sp.snippets_text proposed_pr sp.emits sp.searchCalls
      sp.snippets

/-- The persisted `SweepChatConfig` fields `repo_name_change` touches. -/
structure SweepChatConfig where
  repo_full_name : Option String
  installation_id : Option Nat
deriving Repr, DecidableEq

/-- The module-level mutable state `repo_name_change` can reach: the config
object, the copy held by the api client, the last saved config, the
`selected_files` list, the `file_to_str` file-content cache, and the
browser tabs opened so far. -/
structure UIState where
  config : SweepChatConfig
  api_client_config : SweepChatConfig
  saved_config : Option SweepChatConfig
  selected_files : List String
  file_to_str : List (String × String)
  opened_browser_tabs : List String
deriving Repr, DecidableEq

/-- The `except` branch of `repo_name_change` (lines 61-67 of `ui.py`):
open the Sweep installation page, null out the repo and installation id,
save, update the api client copy and re-raise. -/
def repoChangeFail (st : UIState) : UIState × Option String :=
  let cfg := { st.config with repo_full_name := none, installation_id := none }
  ({ st with config := cfg, api_client_config := cfg, saved_config := some cfg,
             opened_browser_tabs :=
               st.opened_browser_tabs ++ ["https://github.com/apps/sweep-ai"] }, none)

/-- Lines 50-67 of `ui.py`: the repository-selection handler.  The oracle
`get_installation_id` is `none` when `api_client.get_installation_id()`
raises; a returned `0` is falsy, so the `assert` fails.  The second
component is the returned textbox value (`some ""`) or `none` when the
exception propagates. -/
def repo_name_change (get_installation_id : Option Nat) (st : UIState)
    (repo_full_name : String) : UIState × Option String :=
  let cfg1 := { st.config with repo_full_name := some repo_full_name }
  let st1 := { st with config := cfg1, api_client_config := cfg1 }
  match get_installation_id with
  | some iid =>
    if iid != 0 then
      let cfg2 := { cfg1 with installation_id := some iid }
      ({ st1 with config := cfg2, api_client_config := cfg2, saved_config := some cfg2 },
       some "")
    else repoChangeFail st1
  | none => repoChangeFail st1

/-- The running value of the `function_name` variable after a list of
chunks: the fold of line 156 (`function_name = function_name or
function_call.get("name")`) over the stream, used to state end-of-stream
properties. -/
def stepName (n : Option String) (c : Chunk) : Option String :=
  match c.function_call with
  | none => n
  | some fc => pyOrStr n fc.name

/-- The concatenation of all `arguments` fragments of a stream, used to
state end-of-stream properties (line 157 accumulates exactly this when no
fragment is missing its `arguments`). -/
def chunksArgs : List Chunk → String
  | [] => ""
  | c :: cs =>
    (match c.function_call with
     | none => ""
     | some fc => fc.arguments.getD "") ++ chunksArgs cs

/-- A pure content fragment of the stream. -/
def mkContentChunk (t : String) : Chunk := { content := some t, function_call := none }

/-- The successive accumulated texts produced by appending each token of a
list to a starting text, used to state the aggregator claim. -/
def accums (a : String) : List String → List String
  | [] => []
  | t :: ts => (a ++ t) :: accums (a ++ t) ts

/-- The concatenation of a list of content fragments. -/
def concatAll : List String → String
  | [] => ""
  | t :: ts => t ++ concatAll ts

/-! The loop invariant and chunk well-formedness predicates. -/

/-- The loop invariant: a non-empty chat history whose last assistant slot
holds a string (so `+=` cannot raise). -/
def goodState (s : LoopState) : Prop :=
  s.chat_history ≠ [] ∧ ∃ a, lastAssistant s.chat_history = some a

/-- A chunk whose function-call fragment, if any, carries an `arguments`
chunk (the shape under which line 157 cannot raise). -/
def ChunkArgsOk (c : Chunk) : Prop :=
  ∀ fc, c.function_call = some fc → fc.arguments ≠ none

/-- The `arguments` contribution of a single chunk. -/
def argsOf (c : Chunk) : String :=
  match c.function_call with
  | none => ""
  | some fc => fc.arguments.getD ""

/-! Concrete inputs used for closed-form runs of the embedding. -/

/-- A turn environment with an empty stream. -/
def envEmpty : Env :=
  { searchResult := [], streamChunks := [], parseJson := fun _ => none, prUrl := "http://pr/1" }

/-- A one-turn history whose user message is "hi". -/
def histHi : List ChatTurn := [{ user := some "hi", assistant := none }]

/-- A one-turn history whose user message is " OK ". -/
def histOk : List ChatTurn := [{ user := some " OK ", assistant := none }]

/-- A concrete pending proposal. -/
def propDemo : Proposal :=
  { title := "T", summary := "S", plan := [{ file_path := "a.py", instructions := "do" }],
    branch := "b" }

/-- An environment whose stream is one complete `create_pr` call whose
parsed arguments carry no `branch` key. -/
def envCreatePr : Env :=
  { searchResult := [],
    streamChunks := [{ content := none,
                       function_call := some { name := some "create_pr",
                                               arguments := some "rawargs" } }],
    parseJson := fun s =>
      if s == "rawargs" then
        some { title := some "X", summary := some "S", plan := some [], branch := none }
      else none,
    prUrl := "http://pr/2" }

/-- Like `envCreatePr` but the parsed arguments lack the `plan` key. -/
def envMissingPlan : Env :=
  { envCreatePr with
    parseJson := fun _ =>
      some { title := some "X", summary := some "S", plan := none, branch := none } }

/-- An environment whose single fragment names `create_pr` but carries no
`arguments` chunk. -/
def envNoArgs : Env :=
  { searchResult := [],
    streamChunks := [{ content := none,
                       function_call := some { name := some "create_pr",
                                               arguments := none } }],
    parseJson := fun _ => none, prUrl := "" }

/-- An environment streaming the two content fragments "Hel" and "lo". -/
def envHello : Env :=
  { searchResult := [], streamChunks := [mkContentChunk "Hel", mkContentChunk "lo"],
    parseJson := fun _ => none, prUrl := "" }

/-- An environment streaming the content fragments "Hel", "" and "lo" —
the middle one has empty (falsy) content. -/
def envHelloGap : Env :=
  { searchResult := [],
    streamChunks := [mkContentChunk "Hel", mkContentChunk "", mkContentChunk "lo"],
    parseJson := fun _ => none, prUrl := "" }

/-- A UI state holding a cached preview and a selected file of the
previously selected repository. -/
def stDemo : UIState :=
  { config := { repo_full_name := some "old/repo", installation_id := some 1 },
    api_client_config := { repo_full_name := some "old/repo", installation_id := some 1 },
    saved_config := none, selected_files := ["a.py"], file_to_str := [("a.py", "preview")],
    opened_browser_tabs := [] }

/-! Structure lemmas about last-turn access and mutation. -/

theorem setLastAssistant_append_singleton :
    ∀ (h : List ChatTurn) (t : ChatTurn) (v : String),
      setLastAssistant (h ++ [t]) v = h ++ [{ t with assistant := some v }]
  | [], _, _ => rfl
  | [_], _, _ => rfl
  | a :: b :: h, t, v => by
    have ih := setLastAssistant_append_singleton (b :: h) t v
    simp only [List.cons_append] at ih ⊢
    rw [setLastAssistant, ih]

theorem lastUser_append_singleton :
    ∀ (h : List ChatTurn) (t : ChatTurn), lastUser (h ++ [t]) = t.user
  | [], _ => rfl
  | [_], _ => rfl
  | a :: b :: h, t => by
    have ih := lastUser_append_singleton (b :: h) t
    simp only [List.cons_append] at ih ⊢
    rw [lastUser, ih]

theorem lastAssistant_append_singleton :
    ∀ (h : List ChatTurn) (t : ChatTurn), lastAssistant (h ++ [t]) = t.assistant
  | [], _ => rfl
  | [_], _ => rfl
  | a :: b :: h, t => by
    have ih := lastAssistant_append_singleton (b :: h) t
    simp only [List.cons_append] at ih ⊢
    rw [lastAssistant, ih]

theorem appendLastAssistant_append_singleton :
    ∀ (h : List ChatTurn) (u : Option String) (a tok : String),
      appendLastAssistant (h ++ [⟨u, some a⟩]) tok = .ok (h ++ [⟨u, some (a ++ tok)⟩])
  | [], _, _, _ => rfl
  | [_], _, _, _ => rfl
  | x :: b :: h, u, a, tok => by
    have ih := appendLastAssistant_append_singleton (b :: h) u a tok
    simp only [List.cons_append] at ih ⊢
    rw [appendLastAssistant, ih]
    rfl

theorem lastUser_setLastAssistant (h : List ChatTurn) (v : String) :
    lastUser (setLastAssistant h v) = lastUser h := by
  rcases List.eq_nil_or_concat h with rfl | ⟨L, b, rfl⟩
  · rfl
  · rw [List.concat_eq_append, setLastAssistant_append_singleton, lastUser_append_singleton, lastUser_append_singleton]

theorem lastAssistant_setLastAssistant (h : List ChatTurn) (v : String) (hh : h ≠ []) :
    lastAssistant (setLastAssistant h v) = some v := by
  rcases List.eq_nil_or_concat h with rfl | ⟨L, b, rfl⟩
  · exact absurd rfl hh
  · rw [List.concat_eq_append, setLastAssistant_append_singleton, lastAssistant_append_singleton]

theorem setLastAssistant_ne_nil (h : List ChatTurn) (v : String) (hh : h ≠ []) :
    setLastAssistant h v ≠ [] := by
  rcases List.eq_nil_or_concat h with rfl | ⟨L, b, rfl⟩
  · exact absurd rfl hh
  · rw [List.concat_eq_append, setLastAssistant_append_singleton]
    simp

theorem setLastAssistant_dropLast (h : List ChatTurn) (v : String) :
    (setLastAssistant h v).dropLast = h.dropLast := by
  rcases List.eq_nil_or_concat h with rfl | ⟨L, b, rfl⟩
  · rfl
  · rw [List.concat_eq_append, setLastAssistant_append_singleton, List.dropLast_concat, List.dropLast_concat]

theorem setLastAssistant_length (h : List ChatTurn) (v : String) :
    (setLastAssistant h v).length = h.length := by
  rcases List.eq_nil_or_concat h with rfl | ⟨L, b, rfl⟩
  · rfl
  · rw [List.concat_eq_append, setLastAssistant_append_singleton]
    simp

theorem setLastAssistant_map_user (h : List ChatTurn) (v : String) :
    (setLastAssistant h v).map ChatTurn.user = h.map ChatTurn.user := by
  rcases List.eq_nil_or_concat h with rfl | ⟨L, b, rfl⟩
  · rfl
  · rw [List.concat_eq_append, setLastAssistant_append_singleton]
    simp

theorem appendLastAssistant_ok (h : List ChatTurn) (a tok : String) (hh : h ≠ [])
    (ha : lastAssistant h = some a) :
    appendLastAssistant h tok = .ok (setLastAssistant h (a ++ tok)) := by
  rcases List.eq_nil_or_concat h with rfl | ⟨L, b, rfl⟩
  · exact absurd rfl hh
  · rw [List.concat_eq_append] at ha ⊢
    rw [lastAssistant_append_singleton] at ha
    rw [setLastAssistant_append_singleton]
    obtain ⟨u, a'⟩ := b
    cases ha
    exact appendLastAssistant_append_singleton L u a tok

/-! Lemmas about the stream-consumption loop. -/

theorem chunksArgs_cons (c : Chunk) (cs : List Chunk) :
    chunksArgs (c :: cs) = argsOf c ++ chunksArgs cs := rfl

theorem contentStep_ok (snip : String) (s : LoopState) (c : Chunk) (hs : goodState s) :
    ∃ s1, contentStep snip s c = (s1, none) ∧ goodState s1 ∧
      s1.function_name = s.function_name ∧ s1.raw_arguments = s.raw_arguments := by
  obtain ⟨hh, a, ha⟩ := hs
  cases hc : c.content with
  | none => exact ⟨s, by simp [contentStep, hc], ⟨hh, a, ha⟩, rfl, rfl⟩
  | some tok =>
    by_cases htok : tok = ""
    · refine ⟨s, ?_, ⟨hh, a, ha⟩, rfl, rfl⟩
      simp [contentStep, hc, htok]
    · have heq : contentStep snip s c =
          ({ s with
              chat_history := setLastAssistant s.chat_history (a ++ tok),
              emits := s.emits ++ [(setLastAssistant s.chat_history (a ++ tok), snip)] },
            none) := by
        simp [contentStep, hc, htok, appendLastAssistant_ok s.chat_history a tok hh ha]
      exact ⟨_, heq, ⟨setLastAssistant_ne_nil _ _ hh, a ++ tok,
        lastAssistant_setLastAssistant _ _ hh⟩, rfl, rfl⟩

theorem fcStep_ok (snip : String) (s : LoopState) (c : Chunk)
    (hs : goodState s) (hc : ChunkArgsOk c) :
    (fcStep snip s c).2 = none ∧
    goodState (fcStep snip s c).1 ∧
    (fcStep snip s c).1.function_name = stepName s.function_name c ∧
    (fcStep snip s c).1.raw_arguments = s.raw_arguments ++ argsOf c := by
  obtain ⟨hh, a, ha⟩ := hs
  cases hfc : c.function_call with
  | none =>
    have h1 : fcStep snip s c = (s, none) := by simp [fcStep, hfc]
    rw [h1]
    exact ⟨rfl, ⟨hh, a, ha⟩, by simp [stepName, hfc],
      by simp [argsOf, hfc, String.append_empty]⟩
  | some fc =>
    cases hargs : fc.arguments with
    | none => exact absurd hargs (hc fc hfc)
    | some arg =>
      have hmatch : fcStep snip s c =
          ({ function_name := pyOrStr s.function_name fc.name,
             raw_arguments := s.raw_arguments ++ arg,
             chat_history := setLastAssistant s.chat_history
               (functionCallRender (pyOrStr s.function_name fc.name) (s.raw_arguments ++ arg)),
             emits := s.emits ++ [(setLastAssistant s.chat_history
               (functionCallRender (pyOrStr s.function_name fc.name)
                 (s.raw_arguments ++ arg)), snip)] },
           none) := by
        simp only [fcStep, hfc, hargs]
        cases hch : s.chat_history with
        | nil => exact absurd hch hh
        | cons t ts => simp
      rw [hmatch]
      refine ⟨rfl, ⟨setLastAssistant_ne_nil _ _ hh, _,
        lastAssistant_setLastAssistant _ _ hh⟩, ?_, ?_⟩
      · simp [stepName, hfc]
      · simp [argsOf, hfc, hargs]

theorem processChunk_ok (snip : String) (s : LoopState) (c : Chunk)
    (hs : goodState s) (hc : ChunkArgsOk c) :
    (processChunk snip s c).2 = none ∧
    goodState (processChunk snip s c).1 ∧
    (processChunk snip s c).1.function_name = stepName s.function_name c ∧
    (processChunk snip s c).1.raw_arguments = s.raw_arguments ++ argsOf c := by
  obtain ⟨s1, hs1, hgood1, hfn1, hraw1⟩ := contentStep_ok snip s c hs
  have hfc := fcStep_ok snip s1 c hgood1 hc
  simp only [processChunk, hs1]
  rw [hfn1] at hfc
  rw [hraw1] at hfc
  exact hfc

theorem processChunks_wf (snip : String) :
    ∀ (cs : List Chunk) (s : LoopState), goodState s → (∀ c ∈ cs, ChunkArgsOk c) →
      (processChunks snip s cs).2 = none ∧
      goodState (processChunks snip s cs).1 ∧
      (processChunks snip s cs).1.function_name = cs.foldl stepName s.function_name ∧
      (processChunks snip s cs).1.raw_arguments = s.raw_arguments ++ chunksArgs cs
  | [], s, hs, _ => ⟨rfl, hs, rfl, (String.append_empty _).symm⟩
  | c :: cs, s, hs, hwf => by
    obtain ⟨h2, hgood, hfn, hraw⟩ :=
      processChunk_ok snip s c hs (hwf c (List.mem_cons_self c cs))
    obtain ⟨s1, e1, hse⟩ : ∃ s1 e1, processChunk snip s c = (s1, e1) := ⟨_, _, rfl⟩
    rw [hse] at h2 hgood hfn hraw
    simp only at h2 hgood hfn hraw
    subst h2
    have ih := processChunks_wf snip cs s1 hgood
      (fun c2 hc2 => hwf c2 (List.mem_cons_of_mem c hc2))
    rw [show processChunks snip s (c :: cs) = processChunks snip s1 cs by
      rw [processChunks, hse]]
    refine ⟨ih.1, ih.2.1, ?_, ?_⟩
    · rw [ih.2.2.1, hfn, List.foldl_cons]
    · rw [ih.2.2.2, hraw, chunksArgs_cons, String.append_assoc]

theorem processChunk_bad (snip : String) (s : LoopState) (c : Chunk)
    (hs : goodState s) (fc : FunctionCallChunk) (hfc : c.function_call = some fc)
    (hargs : fc.arguments = none) :
    (processChunk snip s c).2 = some .typeError := by
  obtain ⟨s1, hs1, hgood1, hfn1, hraw1⟩ := contentStep_ok snip s c hs
  simp only [processChunk, hs1, fcStep, hfc, hargs]

theorem processChunks_split (snip : String) :
    ∀ (cs1 : List Chunk) (cs2 : List Chunk) (s : LoopState),
      (processChunks snip s cs1).2 = none →
      processChunks snip s (cs1 ++ cs2) =
        processChunks snip (processChunks snip s cs1).1 cs2
  | [], cs2, s, _ => rfl
  | c :: cs1, cs2, s, h => by
    rw [List.cons_append, processChunks]
    rw [processChunks] at h
    match hse : processChunk snip s c with
    | (s1, some e) => rw [hse] at h; simp at h
    | (s1, none) =>
      rw [hse] at h
      simp only at h ⊢
      rw [processChunks_split snip cs1 cs2 s1 h]
      congr 1
      rw [processChunks, hse]

theorem processChunks_content (snip : String) :
    ∀ (toks : List String) (h0 : List ChatTurn) (u : Option String) (a0 : String)
      (fn : Option String) (raw : String) (em : List (List ChatTurn × String)),
      processChunks snip
        { function_name := fn, raw_arguments := raw,
          chat_history := h0 ++ [⟨u, some a0⟩], emits := em }
        (toks.map mkContentChunk) =
      ({ function_name := fn, raw_arguments := raw,
         chat_history := h0 ++ [⟨u, some (a0 ++ concatAll toks)⟩],
         emits := em ++ (accums a0 (toks.filter (fun t => t != ""))).map
           (fun b => (h0 ++ [⟨u, some b⟩], snip)) }, none)
  | [], h0, u, a0, fn, raw, em => by
    simp [processChunks, concatAll, accums, String.append_empty]
  | t :: ts, h0, u, a0, fn, raw, em => by
    by_cases ht : t = ""
    · subst ht
      have hstep : processChunk snip
          { function_name := fn, raw_arguments := raw,
            chat_history := h0 ++ [⟨u, some a0⟩], emits := em } (mkContentChunk "") =
          ({ function_name := fn, raw_arguments := raw,
             chat_history := h0 ++ [⟨u, some a0⟩], emits := em }, none) := by
        simp [processChunk, contentStep, mkContentChunk, fcStep]
      rw [List.map_cons, processChunks, hstep]
      simp only
      rw [processChunks_content snip ts h0 u a0 fn raw em]
      simp [concatAll, String.empty_append, List.filter_cons]
    · have hstep : processChunk snip
          { function_name := fn, raw_arguments := raw,
            chat_history := h0 ++ [⟨u, some a0⟩], emits := em } (mkContentChunk t) =
          ({ function_name := fn, raw_arguments := raw,
             chat_history := h0 ++ [⟨u, some (a0 ++ t)⟩],
             emits := em ++ [(h0 ++ [⟨u, some (a0 ++ t)⟩], snip)] }, none) := by
        simp only [processChunk, contentStep, mkContentChunk]
        simp [ht, appendLastAssistant_append_singleton h0 u a0 t, fcStep]
      rw [List.map_cons, processChunks, hstep]
      simp only
      rw [processChunks_content snip ts h0 u (a0 ++ t) fn raw _]
      simp [concatAll, accums, String.append_assoc, List.filter_cons, ht]

theorem accums_start_le : ∀ (a : String) (ts : List String) (x : String),
    x ∈ accums a ts → a.data <+: x.data
  | _, [], x, hx => absurd hx (List.not_mem_nil x)
  | a, t :: ts, x, hx => by
    have hmem : x = a ++ t ∨ x ∈ accums (a ++ t) ts := by
      simpa [accums] using hx
    rcases hmem with rfl | hx2
    · rw [String.data_append]
      exact List.prefix_append _ _
    · have h1 : a.data <+: (a ++ t).data := by
        rw [String.data_append]
        exact List.prefix_append _ _
      exact h1.trans (accums_start_le (a ++ t) ts x hx2)

theorem accums_chain : ∀ (a : String) (ts : List String),
    List.Chain' (fun x y : String => x.data <+: y.data) (accums a ts)
  | _, [] => List.chain'_nil
  | a, t :: ts => by
    rw [show accums a (t :: ts) = (a ++ t) :: accums (a ++ t) ts from rfl,
      List.chain'_cons']
    refine ⟨?_, accums_chain (a ++ t) ts⟩
    intro y hy
    exact accums_start_le (a ++ t) ts y (List.mem_of_mem_head? hy)

/-! Lemmas about the search phase and branch dispatch. -/

theorem searchPhase_spec (env : Env) (h : List ChatTurn) (t : String) (hh : h ≠ []) :
    (searchPhase env h t).error = none ∧
    (searchPhase env h t).searchCalls =
      (if triggersSearch t = true then [(lastUser h, 3)] else []) ∧
    (searchPhase env h t).chat_history =
      (if triggersSearch t = true
       then setLastAssistant (setLastAssistant h "Searching for relevant snippets...")
              "Found relevant snippets."
       else h) := by
  cases h with
  | nil => exact absurd rfl hh
  | cons a h2 =>
    by_cases htr : triggersSearch t = true
    · simp [searchPhase, htr]
    · simp [searchPhase, htr]

theorem searchPhase_no_trigger (env : Env) (h : List ChatTurn) (t : String)
    (htr : triggersSearch t = false) :
    searchPhase env h t =
      { chat_history := h, snippets_text := t, emits := [(h, t)],
        searchCalls := [], snippets := [], error := none } := by
  simp [searchPhase, htr]

theorem searchPhase_ne_nil (env : Env) (h : List ChatTurn) (t : String) (hh : h ≠ []) :
    (searchPhase env h t).chat_history ≠ [] := by
  rw [(searchPhase_spec env h t hh).2.2]
  split
  · exact setLastAssistant_ne_nil _ _ (setLastAssistant_ne_nil _ _ hh)
  · exact hh

theorem searchPhase_lastUser (env : Env) (h : List ChatTurn) (t : String) (hh : h ≠ []) :
    lastUser (searchPhase env h t).chat_history = lastUser h := by
  rw [(searchPhase_spec env h t hh).2.2]
  split
  · rw [lastUser_setLastAssistant, lastUser_setLastAssistant]
  · rfl

theorem searchPhase_dropLast (env : Env) (h : List ChatTurn) (t : String) (hh : h ≠ []) :
    (searchPhase env h t).chat_history.dropLast = h.dropLast := by
  rw [(searchPhase_spec env h t hh).2.2]
  split
  · rw [setLastAssistant_dropLast, setLastAssistant_dropLast]
  · rfl

theorem searchPhase_length (env : Env) (h : List ChatTurn) (t : String) (hh : h ≠ []) :
    (searchPhase env h t).chat_history.length = h.length := by
  rw [(searchPhase_spec env h t hh).2.2]
  split
  · rw [setLastAssistant_length, setLastAssistant_length]
  · rfl

theorem searchPhase_map_user (env : Env) (h : List ChatTurn) (t : String) (hh : h ≠ []) :
    (searchPhase env h t).chat_history.map ChatTurn.user = h.map ChatTurn.user := by
  rw [(searchPhase_spec env h t hh).2.2]
  split
  · rw [setLastAssistant_map_user, setLastAssistant_map_user]
  · rfl

theorem handle_message_stream_eq (env : Env) (h : List ChatTurn) (t : String)
    (prop : Option Proposal) (hh : h ≠ []) :
    handle_message_stream env h t prop =
      afterSearch env (searchPhase env h t).chat_history (searchPhase env h t).snippets_text
        prop (searchPhase env h t).emits (searchPhase env h t).searchCalls
        (searchPhase env h t).snippets := by
  simp only [handle_message_stream]
  rw [(searchPhase_spec env h t hh).1]

theorem afterSearch_confirm (env : Env) (ch : List ChatTurn) (st : String) (p : Proposal)
    (emits : List (List ChatTurn × String)) (searches : List (Option String × Nat))
    (snips : List Snippet) (m : String) (hch : ch ≠ []) (hm : lastUser ch = some m)
    (hok : okMessage m = true) :
    afterSearch env ch st (some p) emits searches snips =
      confirmBranch env ch st p emits searches := by
  cases ch with
  | nil => exact absurd rfl hch
  | cons a ch2 => simp only [afterSearch, hm, hok, if_true]

theorem afterSearch_generate_some (env : Env) (ch : List ChatTurn) (st : String)
    (p : Proposal) (emits : List (List ChatTurn × String))
    (searches : List (Option String × Nat)) (snips : List Snippet) (m : String)
    (hch : ch ≠ []) (hm : lastUser ch = some m) (hok : okMessage m = false) :
    afterSearch env ch st (some p) emits searches snips =
      generateBranch env ch st (some p) emits searches snips := by
  cases ch with
  | nil => exact absurd rfl hch
  | cons a ch2 => simp only [afterSearch, hm, hok, Bool.false_eq_true, if_false]

theorem afterSearch_generate_none (env : Env) (ch : List ChatTurn) (st : String)
    (emits : List (List ChatTurn × String)) (searches : List (Option String × Nat))
    (snips : List Snippet) :
    afterSearch env ch st none emits searches snips =
      generateBranch env ch st none emits searches snips := rfl

theorem streamEnd_fields (env : Env) (ls : LoopState) (st : String)
    (prop : Option Proposal) (searches : List (Option String × Nat))
    (scalls : List (List ChatTurn × List Snippet)) :
    (streamEnd env ls st prop searches scalls).searchCalls = searches ∧
    (streamEnd env ls st prop searches scalls).createPrCalls = [] ∧
    (streamEnd env ls st prop searches scalls).streamChatCalls = scalls := by
  simp only [streamEnd]
  repeat' split
  all_goals exact ⟨rfl, rfl, rfl⟩

theorem generateBranch_searchCalls (env : Env) (ch : List ChatTurn) (st : String)
    (prop : Option Proposal) (emits : List (List ChatTurn × String))
    (searches : List (Option String × Nat)) (snips : List Snippet) :
    (generateBranch env ch st prop emits searches snips).searchCalls = searches := by
  simp only [generateBranch]
  split
  · rfl
  · exact (streamEnd_fields _ _ _ _ _ _).1

theorem generateBranch_createPrCalls (env : Env) (ch : List ChatTurn) (st : String)
    (prop : Option Proposal) (emits : List (List ChatTurn × String))
    (searches : List (Option String × Nat)) (snips : List Snippet) :
    (generateBranch env ch st prop emits searches snips).createPrCalls = [] := by
  simp only [generateBranch]
  split
  · rfl
  · exact (streamEnd_fields _ _ _ _ _ _).2.1

theorem afterSearch_searchCalls (env : Env) (ch : List ChatTurn) (st : String)
    (prop : Option Proposal) (emits : List (List ChatTurn × String))
    (searches : List (Option String × Nat)) (snips : List Snippet) :
    (afterSearch env ch st prop emits searches snips).searchCalls = searches := by
  unfold afterSearch
  repeat' split
  all_goals first
    | rfl
    | exact generateBranch_searchCalls _ _ _ _ _ _ _

theorem okMessage_iff (m : String) :
    okMessage m = true ↔ (pyLower (pyStrip m) = "ok" ∨ pyLower (pyStrip m) = "okay") := by
  simp [okMessage, or_comm]

theorem strSlice_length_le (s : String) (n : Nat) : (strSlice s n).length ≤ n := by
  show (s.data.take n).length ≤ n
  rw [List.length_take]
  exact min_le_left _ _

/-- The stream loop of `generateBranch`, characterized: with a well-formed
stream the loop raises nothing, the final function name is the fold of the
name updates, and the raw buffer is the concatenation of the argument
fragments. -/
theorem generateBranch_eq_streamEnd (env : Env) (ch : List ChatTurn) (st : String)
    (prop : Option Proposal) (emits : List (List ChatTurn × String))
    (searches : List (Option String × Nat)) (snips : List Snippet)
    (hwf : ∀ c ∈ env.streamChunks, ChunkArgsOk c) :
    ∃ ls, generateBranch env ch st prop emits searches snips =
        streamEnd env ls st prop searches
          [(setLastAssistant (ch ++ [⟨none, some "Fetching endpoint..."⟩]) "", snips)] ∧
      ls.function_name = env.streamChunks.foldl stepName (some "") ∧
      ls.raw_arguments = chunksArgs env.streamChunks ∧
      ls.chat_history ≠ [] := by
  have hne1 : ch ++ [(⟨none, some "Fetching endpoint..."⟩ : ChatTurn)] ≠ [] := by simp
  have hgood : goodState
      { function_name := some "", raw_arguments := "",
        chat_history := setLastAssistant (ch ++ [⟨none, some "Fetching endpoint..."⟩]) "",
        emits := emits ++ [(ch ++ [⟨none, some "Fetching endpoint..."⟩], st)] } :=
    ⟨setLastAssistant_ne_nil _ _ hne1, "", lastAssistant_setLastAssistant _ _ hne1⟩
  obtain ⟨herr, hgood2, hfn, hraw⟩ := processChunks_wf st env.streamChunks _ hgood hwf
  obtain ⟨ls, e, hpc⟩ : ∃ ls e, processChunks st
      { function_name := some "", raw_arguments := "",
        chat_history := setLastAssistant (ch ++ [⟨none, some "Fetching endpoint..."⟩]) "",
        emits := emits ++ [(ch ++ [⟨none, some "Fetching endpoint..."⟩], st)] }
      env.streamChunks = (ls, e) := ⟨_, _, rfl⟩
  rw [hpc] at herr hgood2 hfn hraw
  simp only at herr hgood2 hfn hraw
  subst herr
  refine ⟨ls, ?_, hfn, by rw [hraw, String.empty_append], hgood2.1⟩
  simp only [generateBranch, hpc]

/-- End-of-stream handling when a required `create_pr` key is missing: the
`assert` fails and the stored proposal is untouched. -/
theorem streamEnd_missing_key (env : Env) (ls : LoopState) (st : String)
    (prop : Option Proposal) (searches : List (Option String × Nat))
    (scalls : List (List ChatTurn × List Snippet)) (args : CreatePrArgs)
    (hfn : ls.function_name = some "create_pr")
    (hparse : env.parseJson ls.raw_arguments = some args)
    (hmissing : args.title = none ∨ args.summary = none ∨ args.plan = none) :
    (streamEnd env ls st prop searches scalls).error = some .assertionError ∧
    (streamEnd env ls st prop searches scalls).proposed_pr = prop ∧
    (streamEnd env ls st prop searches scalls).createPrCalls = [] := by
  obtain ⟨ti, su, pl, br⟩ := args
  rcases hmissing with h | h | h <;> simp only at h <;> subst h
  · simp [streamEnd, hfn, hparse, pyTruthy]
  · cases ti <;> simp [streamEnd, hfn, hparse, pyTruthy]
  · cases ti <;> cases su <;> simp [streamEnd, hfn, hparse, pyTruthy]

/-- End-of-stream handling of a complete `create_pr` argument object: the
proposal is stored with the given or derived branch and no error is
raised. -/
theorem streamEnd_create_pr (env : Env) (ls : LoopState) (st : String)
    (prop : Option Proposal) (searches : List (Option String × Nat))
    (scalls : List (List ChatTurn × List Snippet)) (t su : String)
    (pl : List PlanItem) (br : Option String)
    (hfn : ls.function_name = some "create_pr") (hch : ls.chat_history ≠ [])
    (hparse : env.parseJson ls.raw_arguments =
      some { title := some t, summary := some su, plan := some pl, branch := br }) :
    (streamEnd env ls st prop searches scalls).proposed_pr =
      some { title := t, summary := su, plan := pl, branch := br.getD (deriveBranch t) } ∧
    (streamEnd env ls st prop searches scalls).error = none := by
  match hch2 : ls.chat_history with
  | [] => exact absurd hch2 hch
  | a :: ch2 =>
    cases br <;> simp [streamEnd, hfn, hparse, pyTruthy, hch2]

theorem processChunks_cons_error (snip : String) (s : LoopState) (c : Chunk)
    (cs : List Chunk) (e : TurnError) (h : (processChunk snip s c).2 = some e) :
    processChunks snip s (c :: cs) = ((processChunk snip s c).1, some e) := by
  rw [processChunks]
  match hpc : processChunk snip s c with
  | (s1, some e1) =>
    rw [hpc] at h
    simp only at h
    show (s1, some e1) = (s1, some e)
    rw [h]
  | (s1, none) =>
    rw [hpc] at h
    simp at h

theorem confirmBranch_chat_history (env : Env) (ch : List ChatTurn) (st : String)
    (p : Proposal) (emits : List (List ChatTurn × String))
    (searches : List (Option String × Nat)) :
    (confirmBranch env ch st p emits searches).chat_history =
      setLastAssistant (setLastAssistant ch "⏳ Creating PR...")
        ("✅ PR created at " ++ env.prUrl) := rfl

/-! Theorems that settle the claims. -/

/-- C1, counterexample: with an empty snippet block the turn makes no
search call at all (the claim requires exactly one there — but the empty
string is falsy on line 107); and with the block "x\n", which contains a
line break, the search does fire, because `strip` removes the trailing
newline before newlines are counted. -/
theorem C1_counterexample :
    (handle_message_stream envEmpty histHi "" none).searchCalls.length = 0 ∧
    (handle_message_stream envEmpty histHi "" none).error = none ∧
    (handle_message_stream envEmpty histHi "x\n" none).searchCalls.length = 1 ∧
    (handle_message_stream envEmpty histHi "x\n" none).error = none := by
  exact ⟨rfl, rfl, rfl, rfl⟩

/-- C1, amended: for every turn on a non-empty history, the snippet search
(with the latest user message as query and fanout exactly 3) is invoked
exactly once iff the current snippet rendering block is a non-empty string
that contains no line breaks outside its surrounding whitespace; in
particular, an empty block triggers no search. -/
theorem C1_search_policy (env : Env) (hist : List ChatTurn) (text : String)
    (prop : Option Proposal) (hne : hist ≠ []) :
    (handle_message_stream env hist text prop).searchCalls =
      if text ≠ "" ∧ countNewlines (pyStrip text) = 0
      then [(lastUser hist, 3)] else [] := by
  rw [handle_message_stream_eq env hist text prop hne, afterSearch_searchCalls,
    (searchPhase_spec env hist text hne).2.1]
  have hiff : triggersSearch text = true ↔
      (text ≠ "" ∧ countNewlines (pyStrip text) = 0) := by
    simp [triggersSearch]
  by_cases hc : text ≠ "" ∧ countNewlines (pyStrip text) = 0
  · rw [if_pos (hiff.mpr hc), if_pos hc]
  · rw [if_neg (fun h => hc (hiff.mp h)), if_neg hc]

theorem C1_search_policy_witness :
    histHi ≠ [] ∧
    (handle_message_stream envEmpty histHi "### Relevant snippets" none).searchCalls =
      (if ("### Relevant snippets" : String) ≠ "" ∧
          countNewlines (pyStrip "### Relevant snippets") = 0
       then [(lastUser histHi, 3)] else []) :=
  ⟨by decide, C1_search_policy envEmpty histHi "### Relevant snippets" none (by decide)⟩

/-- C2: with a pending proposal, the create-PR call of the Confirmed
transition fires (exactly once) iff the new user message, stripped of
surrounding whitespace and lower-cased, is exactly "ok" or "okay"; any
other message fires nothing, and so does any message when no proposal is
pending. -/
theorem C2_confirmation_trigger (env : Env) (hist : List ChatTurn) (text : String)
    (prop : Option Proposal) (m : String) (hne : hist ≠ [])
    (hm : lastUser hist = some m) :
    (handle_message_stream env hist text prop).createPrCalls.length =
      if prop.isSome = true ∧ (pyLower (pyStrip m) = "ok" ∨ pyLower (pyStrip m) = "okay")
      then 1 else 0 := by
  rw [handle_message_stream_eq env hist text prop hne]
  have hch := searchPhase_ne_nil env hist text hne
  have hmu : lastUser (searchPhase env hist text).chat_history = some m := by
    rw [searchPhase_lastUser env hist text hne]
    exact hm
  cases prop with
  | none =>
    rw [afterSearch_generate_none, generateBranch_createPrCalls]
    simp
  | some p =>
    by_cases hok : okMessage m = true
    · rw [afterSearch_confirm env _ _ p _ _ _ m hch hmu hok,
        if_pos ⟨rfl, (okMessage_iff m).mp hok⟩]
      rfl
    · have hok2 : okMessage m = false := by
        cases hfb : okMessage m
        · rfl
        · exact absurd hfb hok
      rw [afterSearch_generate_some env _ _ p _ _ _ m hch hmu hok2,
        generateBranch_createPrCalls, if_neg]
      · rfl
      · intro hcond
        exact hok ((okMessage_iff m).mpr hcond.2)

theorem C2_confirmation_trigger_witness :
    histOk ≠ [] ∧ lastUser histOk = some " OK " ∧
    (handle_message_stream envEmpty histOk "" (some propDemo)).createPrCalls.length =
      (if (some propDemo).isSome = true ∧
          (pyLower (pyStrip " OK ") = "ok" ∨ pyLower (pyStrip " OK ") = "okay")
       then 1 else 0) :=
  ⟨by decide, by decide,
    C2_confirmation_trigger envEmpty histOk "" (some propDemo) " OK " (by decide) (by decide)⟩

/-- C3: a confirmed pending proposal produces exactly one create-PR call,
whose arguments are the plan reshaped to (file path, instructions) pairs,
the descriptor with the proposal title, the summary as content and the
branch as branch name, and the full chat history of the turn; on success
the rendered assistant message contains the returned URL as a substring. -/
theorem C3_create_pr_call_shape (env : Env) (hist : List ChatTurn) (text : String)
    (p : Proposal) (m : String) (hne : hist ≠ []) (hm : lastUser hist = some m)
    (hok : okMessage m = true) :
    (handle_message_stream env hist text (some p)).createPrCalls =
      [{ file_change_requests := p.plan.map (fun item => (item.file_path, item.instructions)),
         pull_request := { title := p.title, content := p.summary,
                           branch_name := p.branch },
         messages := setLastAssistant (searchPhase env hist text).chat_history
           "⏳ Creating PR..." }] ∧
    (∃ pre post,
      lastAssistant (handle_message_stream env hist text (some p)).chat_history =
        some (pre ++ env.prUrl ++ post)) := by
  have hch := searchPhase_ne_nil env hist text hne
  have hmu : lastUser (searchPhase env hist text).chat_history = some m := by
    rw [searchPhase_lastUser env hist text hne]
    exact hm
  rw [handle_message_stream_eq env hist text (some p) hne,
    afterSearch_confirm env _ _ p _ _ _ m hch hmu hok]
  refine ⟨rfl, "✅ PR created at ", "", ?_⟩
  rw [confirmBranch_chat_history,
    lastAssistant_setLastAssistant _ _ (setLastAssistant_ne_nil _ _ hch),
    String.append_empty]

theorem C3_create_pr_call_shape_witness :
    histOk ≠ [] ∧ lastUser histOk = some " OK " ∧ okMessage " OK " = true ∧
    ((handle_message_stream envEmpty histOk "" (some propDemo)).createPrCalls =
      [{ file_change_requests := propDemo.plan.map
           (fun item => (item.file_path, item.instructions)),
         pull_request := { title := propDemo.title, content := propDemo.summary,
                           branch_name := propDemo.branch },
         messages := setLastAssistant (searchPhase envEmpty histOk "").chat_history
           "⏳ Creating PR..." }] ∧
     (∃ pre post,
       lastAssistant (handle_message_stream envEmpty histOk "" (some propDemo)).chat_history =
         some (pre ++ envEmpty.prUrl ++ post))) :=
  ⟨by decide, by decide, by decide,
    C3_create_pr_call_shape envEmpty histOk "" propDemo " OK " (by decide) (by decide)
      (by decide)⟩

/-- C4, counterexample: a confirmed turn creates the PR but the pending
proposal is NOT cleared afterwards — the result still carries it — and
feeding that state into a second "ok" turn fires a second create-PR call,
contradicting the claimed return to NoProposal. -/
theorem C4_counterexample :
    (handle_message_stream envEmpty histOk "" (some propDemo)).createPrCalls.length = 1 ∧
    (handle_message_stream envEmpty histOk "" (some propDemo)).error = none ∧
    (handle_message_stream envEmpty histOk "" (some propDemo)).proposed_pr = some propDemo ∧
    (handle_message_stream envEmpty histOk ""
        (handle_message_stream envEmpty histOk "" (some propDemo)).proposed_pr
      ).createPrCalls.length = 1 := by
  exact ⟨rfl, rfl, rfl, rfl⟩

/-- C4, amended: after a turn in which a pending proposal is confirmed and
the create-PR call succeeds, the pending-proposal reference is NOT
cleared: the session keeps the very same proposal (the source never
assigns `proposed_pr = None`), so a subsequent "ok" message fires another
create-PR call. -/
theorem C4_proposal_not_cleared (env : Env) (hist : List ChatTurn) (text : String)
    (p : Proposal) (m : String) (hne : hist ≠ []) (hm : lastUser hist = some m)
    (hok : okMessage m = true) :
    (handle_message_stream env hist text (some p)).proposed_pr = some p ∧
    (handle_message_stream env hist text (some p)).createPrCalls.length = 1 ∧
    (handle_message_stream env hist text (some p)).error = none := by
  have hch := searchPhase_ne_nil env hist text hne
  have hmu : lastUser (searchPhase env hist text).chat_history = some m := by
    rw [searchPhase_lastUser env hist text hne]
    exact hm
  rw [handle_message_stream_eq env hist text (some p) hne,
    afterSearch_confirm env _ _ p _ _ _ m hch hmu hok]
  exact ⟨rfl, rfl, rfl⟩

theorem C4_proposal_not_cleared_witness :
    histOk ≠ [] ∧ lastUser histOk = some " OK " ∧ okMessage " OK " = true ∧
    ((handle_message_stream envEmpty histOk "" (some propDemo)).proposed_pr =
        some propDemo ∧
     (handle_message_stream envEmpty histOk "" (some propDemo)).createPrCalls.length = 1 ∧
     (handle_message_stream envEmpty histOk "" (some propDemo)).error = none) :=
  ⟨by decide, by decide, by decide,
    C4_proposal_not_cleared envEmpty histOk "" propDemo " OK " (by decide) (by decide)
      (by decide)⟩

/-- C10: when the Confirmed transition fires, the turn generator returns
right after the create-PR call: no stream_chat call is made, no new chat
turn is appended — the history keeps its length, its leading turns and
every user slot, so only the assistant slot of the confirming turn can
differ. -/
theorem C10_confirm_returns_early (env : Env) (hist : List ChatTurn) (text : String)
    (p : Proposal) (m : String) (hne : hist ≠ []) (hm : lastUser hist = some m)
    (hok : okMessage m = true) :
    (handle_message_stream env hist text (some p)).streamChatCalls = [] ∧
    (handle_message_stream env hist text (some p)).error = none ∧
    (handle_message_stream env hist text (some p)).chat_history.length = hist.length ∧
    (handle_message_stream env hist text (some p)).chat_history.dropLast = hist.dropLast ∧
    (handle_message_stream env hist text (some p)).chat_history.map ChatTurn.user =
      hist.map ChatTurn.user := by
  have hch := searchPhase_ne_nil env hist text hne
  have hmu : lastUser (searchPhase env hist text).chat_history = some m := by
    rw [searchPhase_lastUser env hist text hne]
    exact hm
  rw [handle_message_stream_eq env hist text (some p) hne,
    afterSearch_confirm env _ _ p _ _ _ m hch hmu hok]
  refine ⟨rfl, rfl, ?_, ?_, ?_⟩
  · rw [confirmBranch_chat_history, setLastAssistant_length, setLastAssistant_length,
      searchPhase_length env hist text hne]
  · rw [confirmBranch_chat_history, setLastAssistant_dropLast, setLastAssistant_dropLast,
      searchPhase_dropLast env hist text hne]
  · rw [confirmBranch_chat_history, setLastAssistant_map_user, setLastAssistant_map_user,
      searchPhase_map_user env hist text hne]

theorem C10_confirm_returns_early_witness :
    histOk ≠ [] ∧ lastUser histOk = some " OK " ∧ okMessage " OK " = true ∧
    ((handle_message_stream envEmpty histOk "" (some propDemo)).streamChatCalls = [] ∧
     (handle_message_stream envEmpty histOk "" (some propDemo)).error = none ∧
     (handle_message_stream envEmpty histOk "" (some propDemo)).chat_history.length =
       histOk.length ∧
     (handle_message_stream envEmpty histOk "" (some propDemo)).chat_history.dropLast =
       histOk.dropLast ∧
     (handle_message_stream envEmpty histOk "" (some propDemo)).chat_history.map
         ChatTurn.user = histOk.map ChatTurn.user) :=
  ⟨by decide, by decide, by decide,
    C10_confirm_returns_early envEmpty histOk "" propDemo " OK " (by decide) (by decide)
      (by decide)⟩

/-- When no confirmation fires, the turn reduces to the generate branch. -/
theorem handle_eq_generate (env : Env) (hist : List ChatTurn) (text : String)
    (prop : Option Proposal) (m : String) (hne : hist ≠ []) (hm : lastUser hist = some m)
    (hok : okMessage m = false) :
    handle_message_stream env hist text prop =
      generateBranch env (searchPhase env hist text).chat_history
        (searchPhase env hist text).snippets_text prop (searchPhase env hist text).emits
        (searchPhase env hist text).searchCalls (searchPhase env hist text).snippets := by
  rw [handle_message_stream_eq env hist text prop hne]
  cases prop with
  | none => exact afterSearch_generate_none env _ _ _ _ _
  | some p =>
    exact afterSearch_generate_some env _ _ p _ _ _ m (searchPhase_ne_nil env hist text hne)
      (by rw [searchPhase_lastUser env hist text hne]; exact hm) hok

theorem chunkArgsOk_of_args (c : Chunk) (fc : FunctionCallChunk) (a : String)
    (hfc : c.function_call = some fc) (ha : fc.arguments = some a) : ChunkArgsOk c := by
  intro fc2 hfc2
  rw [hfc] at hfc2
  injection hfc2 with h
  subst h
  rw [ha]
  simp

/-- C5: when the stream ends with function name `create_pr` and the parsed
argument object misses `title`, `summary` or `plan`, the turn fails with
the assertion (validation) error and the pending-proposal state is exactly
its value from before the turn. -/
theorem C5_missing_key_is_fatal (env : Env) (hist : List ChatTurn) (text : String)
    (prop : Option Proposal) (m : String) (args : CreatePrArgs)
    (hne : hist ≠ []) (hm : lastUser hist = some m) (hok : okMessage m = false)
    (hwf : ∀ c ∈ env.streamChunks, ChunkArgsOk c)
    (hname : env.streamChunks.foldl stepName (some "") = some "create_pr")
    (hparse : env.parseJson (chunksArgs env.streamChunks) = some args)
    (hmissing : args.title = none ∨ args.summary = none ∨ args.plan = none) :
    (handle_message_stream env hist text prop).error = some .assertionError ∧
    (handle_message_stream env hist text prop).proposed_pr = prop ∧
    (handle_message_stream env hist text prop).createPrCalls = [] := by
  rw [handle_eq_generate env hist text prop m hne hm hok]
  obtain ⟨ls, heq, hfn, hraw, hlsch⟩ := generateBranch_eq_streamEnd env _ _ prop _ _ _ hwf
  rw [heq]
  exact streamEnd_missing_key env ls _ prop _ _ args (by rw [hfn]; exact hname)
    (by rw [hraw]; exact hparse) hmissing

theorem C5_missing_key_is_fatal_witness :
    histHi ≠ [] ∧ lastUser histHi = some "hi" ∧ okMessage "hi" = false ∧
    (∀ c ∈ envMissingPlan.streamChunks, ChunkArgsOk c) ∧
    envMissingPlan.streamChunks.foldl stepName (some "") = some "create_pr" ∧
    envMissingPlan.parseJson (chunksArgs envMissingPlan.streamChunks) =
      some { title := some "X", summary := some "S", plan := none, branch := none } ∧
    ((handle_message_stream envMissingPlan histHi "" none).error =
        some .assertionError ∧
     (handle_message_stream envMissingPlan histHi "" none).proposed_pr = none ∧
     (handle_message_stream envMissingPlan histHi "" none).createPrCalls = []) :=
  have hwf : ∀ c ∈ envMissingPlan.streamChunks, ChunkArgsOk c := by
    intro c hc
    simp only [envMissingPlan, envCreatePr, List.mem_singleton] at hc
    subst hc
    exact chunkArgsOk_of_args _ _ "rawargs" rfl rfl
  ⟨by decide, by decide, by decide, hwf, rfl, rfl,
    C5_missing_key_is_fatal envMissingPlan histHi "" none "hi"
      { title := some "X", summary := some "S", plan := none, branch := none }
      (by decide) (by decide) (by decide) hwf rfl rfl (Or.inr (Or.inr rfl))⟩

/-- C6: a complete `create_pr` argument object stores a proposal whose
branch is the given `branch` when the key is present, and otherwise the
title lower-cased with every space and hyphen replaced by an underscore
and truncated to at most 50 characters. -/
theorem C6_branch_rule (env : Env) (hist : List ChatTurn) (text : String)
    (prop : Option Proposal) (m t su : String) (pl : List PlanItem) (br : Option String)
    (hne : hist ≠ []) (hm : lastUser hist = some m) (hok : okMessage m = false)
    (hwf : ∀ c ∈ env.streamChunks, ChunkArgsOk c)
    (hname : env.streamChunks.foldl stepName (some "") = some "create_pr")
    (hparse : env.parseJson (chunksArgs env.streamChunks) =
      some { title := some t, summary := some su, plan := some pl, branch := br }) :
    (handle_message_stream env hist text prop).proposed_pr =
      some { title := t, summary := su, plan := pl,
             branch := br.getD (deriveBranch t) } ∧
    (handle_message_stream env hist text prop).error = none ∧
    (deriveBranch t).length ≤ 50 := by
  rw [handle_eq_generate env hist text prop m hne hm hok]
  obtain ⟨ls, heq, hfn, hraw, hlsch⟩ := generateBranch_eq_streamEnd env _ _ prop _ _ _ hwf
  rw [heq]
  obtain ⟨h1, h2⟩ := streamEnd_create_pr env ls _ prop _ _ t su pl br
    (by rw [hfn]; exact hname) hlsch (by rw [hraw]; exact hparse)
  exact ⟨h1, h2, strSlice_length_le _ _⟩

theorem C6_branch_rule_witness :
    histHi ≠ [] ∧ lastUser histHi = some "hi" ∧ okMessage "hi" = false ∧
    (∀ c ∈ envCreatePr.streamChunks, ChunkArgsOk c) ∧
    envCreatePr.streamChunks.foldl stepName (some "") = some "create_pr" ∧
    envCreatePr.parseJson (chunksArgs envCreatePr.streamChunks) =
      some { title := some "X", summary := some "S", plan := some [], branch := none } ∧
    ((handle_message_stream envCreatePr histHi "" none).proposed_pr =
        some { title := "X", summary := "S", plan := [],
               branch := Option.getD none (deriveBranch "X") } ∧
     (handle_message_stream envCreatePr histHi "" none).error = none ∧
     (deriveBranch "X").length ≤ 50) ∧
    deriveBranch "X" = "x" :=
  have hwf : ∀ c ∈ envCreatePr.streamChunks, ChunkArgsOk c := by
    intro c hc
    simp only [envCreatePr, List.mem_singleton] at hc
    subst hc
    exact chunkArgsOk_of_args _ _ "rawargs" rfl rfl
  ⟨by decide, by decide, by decide, hwf, rfl, rfl,
    C6_branch_rule envCreatePr histHi "" none "hi" "X" "S" [] none
      (by decide) (by decide) (by decide) hwf rfl rfl,
    by decide⟩

/-- C9: a stream fragment whose function call carries a name but no
`arguments` chunk makes the accumulation `raw_arguments += None` raise: the
turn aborts with a fatal TypeError (no proposal change, no create-PR
call), even though the interface declares the chunk optional. -/
theorem C9_missing_arguments_chunk (env : Env) (hist : List ChatTurn) (text : String)
    (prop : Option Proposal) (m : String) (cs1 cs2 : List Chunk) (c : Chunk)
    (fc : FunctionCallChunk) (hne : hist ≠ []) (hm : lastUser hist = some m)
    (hok : okMessage m = false) (hsplit : env.streamChunks = cs1 ++ c :: cs2)
    (hwf1 : ∀ c2 ∈ cs1, ChunkArgsOk c2) (hc : c.function_call = some fc)
    (hargs : fc.arguments = none) :
    (handle_message_stream env hist text prop).error = some .typeError ∧
    (handle_message_stream env hist text prop).proposed_pr = prop ∧
    (handle_message_stream env hist text prop).createPrCalls = [] := by
  rw [handle_eq_generate env hist text prop m hne hm hok]
  simp only [generateBranch]
  rw [hsplit]
  have hne1 : (searchPhase env hist text).chat_history ++
      [(⟨none, some "Fetching endpoint..."⟩ : ChatTurn)] ≠ [] := by simp
  have hgood : goodState
      { function_name := some "", raw_arguments := "",
        chat_history := setLastAssistant ((searchPhase env hist text).chat_history ++
          [⟨none, some "Fetching endpoint..."⟩]) "",
        emits := (searchPhase env hist text).emits ++
          [((searchPhase env hist text).chat_history ++
              [⟨none, some "Fetching endpoint..."⟩],
            (searchPhase env hist text).snippets_text)] } :=
    ⟨setLastAssistant_ne_nil _ _ hne1, "", lastAssistant_setLastAssistant _ _ hne1⟩
  obtain ⟨herr1, hgood1, _, _⟩ :=
    processChunks_wf (searchPhase env hist text).snippets_text cs1 _ hgood hwf1
  rw [processChunks_split _ cs1 (c :: cs2) _ herr1,
    processChunks_cons_error _ _ c cs2 .typeError
      (processChunk_bad _ _ c hgood1 fc hc hargs)]
  exact ⟨rfl, rfl, rfl⟩

theorem C9_missing_arguments_chunk_witness :
    histHi ≠ [] ∧ lastUser histHi = some "hi" ∧ okMessage "hi" = false ∧
    envNoArgs.streamChunks =
      [] ++ ({ content := none,
               function_call := some { name := some "create_pr", arguments := none } } :
          Chunk) :: [] ∧
    ((handle_message_stream envNoArgs histHi "" none).error = some .typeError ∧
     (handle_message_stream envNoArgs histHi "" none).proposed_pr = none ∧
     (handle_message_stream envNoArgs histHi "" none).createPrCalls = []) :=
  ⟨by decide, by decide, by decide, rfl,
    C9_missing_arguments_chunk envNoArgs histHi "" none "hi" [] []
      { content := none, function_call := some { name := some "create_pr",
                                                 arguments := none } }
      { name := some "create_pr", arguments := none }
      (by decide) (by decide) (by decide) rfl
      (fun c2 hc2 => absurd hc2 (List.not_mem_nil c2)) rfl rfl⟩

/-- C7, counterexample: the stream "Hel", "", "lo" has three content
fragments, but only two loop renders happen — the empty fragment is falsy
on line 150, so neither an append nor a yield occurs for it.  The renders
jump from "Hel" straight to "Hello", refuting "emits the accumulated text
after every fragment". -/
theorem C7_counterexample :
    envHelloGap.streamChunks.length = 3 ∧
    (handle_message_stream envHelloGap histHi "" none).error = none ∧
    (handle_message_stream envHelloGap histHi "" none).emits.map
        (fun e => lastAssistant e.1) =
      [none, some "Fetching endpoint...", some "Hel", some "Hello"] ∧
    lastAssistant (handle_message_stream envHelloGap histHi "" none).chat_history =
      some "Hello" := by
  exact ⟨rfl, rfl, rfl, rfl⟩

/-- C7, amended: over any finite stream of content fragments the
aggregator appends each NON-EMPTY fragment to the accumulated assistant
text and yields the accumulation after each such fragment, while fragments
with empty content are skipped entirely (no append, no yield — the
truthiness check of line 150).  The turn ends without error, the final
assistant text is the concatenation of all fragments in stream order
(empty ones contributing nothing), the yields after the
"Fetching endpoint..." render are exactly the successive accumulations of
the non-empty fragments, and those accumulations grow monotonically by
prefixes. -/
theorem C7_content_aggregation (env : Env) (hist : List ChatTurn) (text : String)
    (prop : Option Proposal) (toks : List String) (m : String)
    (hchunks : env.streamChunks = toks.map mkContentChunk)
    (hne : hist ≠ []) (hm : lastUser hist = some m)
    (hok : okMessage m = false) (htr : triggersSearch text = false) :
    (handle_message_stream env hist text prop).error = none ∧
    (handle_message_stream env hist text prop).chat_history =
      hist ++ [{ user := none, assistant := some (concatAll toks) }] ∧
    (handle_message_stream env hist text prop).emits =
      [(hist, text),
       (hist ++ [{ user := none, assistant := some "Fetching endpoint..." }], text)] ++
        (accums "" (toks.filter (fun t => t != ""))).map
          (fun b => (hist ++ [{ user := none, assistant := some b }], text)) ∧
    (handle_message_stream env hist text prop).proposed_pr = prop ∧
    List.Chain' (fun x y : String => x.data <+: y.data)
      (accums "" (toks.filter (fun t => t != ""))) := by
  rw [handle_eq_generate env hist text prop m hne hm hok,
    searchPhase_no_trigger env hist text htr]
  simp only [generateBranch]
  rw [hchunks, setLastAssistant_append_singleton]
  rw [show ({ user := none, assistant := some "Fetching endpoint..." } : ChatTurn).user =
    none from rfl]
  rw [processChunks_content text toks hist none "" (some "") "" _]
  simp only [streamEnd, pyTruthy]
  refine ⟨?_, ?_, ?_, ?_, accums_chain "" (toks.filter (fun t => t != ""))⟩
  · simp
  · simp [String.empty_append]
  · simp
  · simp

theorem C7_content_aggregation_witness :
    envHelloGap.streamChunks = (["Hel", "", "lo"].map mkContentChunk) ∧
    histHi ≠ [] ∧ lastUser histHi = some "hi" ∧ okMessage "hi" = false ∧
    triggersSearch "" = false ∧
    ((handle_message_stream envHelloGap histHi "" none).error = none ∧
     (handle_message_stream envHelloGap histHi "" none).chat_history =
       histHi ++ [{ user := none, assistant := some (concatAll ["Hel", "", "lo"]) }] ∧
     (handle_message_stream envHelloGap histHi "" none).emits =
       [(histHi, ""),
        (histHi ++ [{ user := none, assistant := some "Fetching endpoint..." }], "")] ++
         (accums "" ((["Hel", "", "lo"] : List String).filter (fun t => t != ""))).map
           (fun b => (histHi ++ [{ user := none, assistant := some b }], "")) ∧
     (handle_message_stream envHelloGap histHi "" none).proposed_pr = none ∧
     List.Chain' (fun x y : String => x.data <+: y.data)
       (accums "" ((["Hel", "", "lo"] : List String).filter (fun t => t != "")))) :=
  ⟨rfl, by decide, by decide, by decide, by decide,
    C7_content_aggregation envHelloGap histHi "" none ["Hel", "", "lo"] "hi" rfl
      (by decide) (by decide) (by decide) (by decide)⟩

/-- C8, counterexample: changing the selected repository runs the handler
(the configured repository does change), yet both the file-content cache
and the selected-files set still hold the entries cached for the previous
repository — neither is reset. -/
theorem C8_counterexample :
    (repo_name_change (some 7) stDemo "new/repo").1.config.repo_full_name =
      some "new/repo" ∧
    (repo_name_change (some 7) stDemo "new/repo").1.file_to_str =
      [("a.py", "preview")] ∧
    (repo_name_change (some 7) stDemo "new/repo").1.selected_files = ["a.py"] := by
  exact ⟨rfl, rfl, rfl⟩

/-- C8, amended: the repository-change handler updates only the
configuration data (repo name, installation id, the saved and api-client
copies, and the opened browser tabs on failure); it leaves the
file-content cache and the selected-files set untouched in both its
success and failure paths, so entries from the previous repository
remain. -/
theorem C8_no_invalidation (o : Option Nat) (st : UIState) (repo : String) :
    (repo_name_change o st repo).1.file_to_str = st.file_to_str ∧
    (repo_name_change o st repo).1.selected_files = st.selected_files := by
  cases o with
  | none => exact ⟨rfl, rfl⟩
  | some iid =>
    by_cases hz : iid = 0
    · subst hz
      exact ⟨rfl, rfl⟩
    · simp [repo_name_change, hz, repoChangeFail]

end SweepUI
